import Mathlib

/-!
Verification of `check_sensitive_info.py`, a content-inspection filter that
scans a prompt string against a fixed battery of regular-expression
detectors and decides whether submission may proceed.

The Python code is shallowly embedded:
* regular expressions become values of a small `RE` type (characters are
  tested by executable class predicates; `\s` is modelled as ASCII
  whitespace);
* `re.search` (does the pattern match anywhere in the text?) becomes the
  executable Brzozowski-derivative scan `RE.search`;
* each `detect_*` function and `check_sensitive_info` is translated
  pattern-for-pattern from the source;
* `main`'s control flow becomes the total function `mainOutput` over an
  explicit event type: the caught exceptions (`json.JSONDecodeError`, the
  outer catch-all `except Exception`) are events carrying their message.
-/

/-- Regular expressions over `Char`, with executable character classes.
`cls p` matches a single character `c` with `p c = true`. -/
inductive RE : Type where
  | fail : RE
  | eps : RE
  | cls : (Char → Bool) → RE
  | cat : RE → RE → RE
  | alt : RE → RE → RE
  | star : RE → RE

/-- The language of a regular expression, as an inductive predicate on
character lists. -/
inductive RE.Lang : RE → List Char → Prop where
  | eps : RE.Lang .eps []
  | cls {p : Char → Bool} {c : Char} : p c = true → RE.Lang (.cls p) [c]
  | cat {a b : RE} {u v : List Char} :
      RE.Lang a u → RE.Lang b v → RE.Lang (.cat a b) (u ++ v)
  | altL {a b : RE} {u : List Char} : RE.Lang a u → RE.Lang (.alt a b) u
  | altR {a b : RE} {u : List Char} : RE.Lang b u → RE.Lang (.alt a b) u
  | starNil {a : RE} : RE.Lang (.star a) []
  | starCat {a : RE} {u v : List Char} :
      RE.Lang a u → RE.Lang (.star a) v → RE.Lang (.star a) (u ++ v)

/-- Does the expression accept the empty string? -/
def RE.nullable : RE → Bool
  | .fail => false
  | .eps => true
  | .cls _ => false
  | .cat a b => a.nullable && b.nullable
  | .alt a b => a.nullable || b.nullable
  | .star _ => true

/-- Brzozowski derivative: the residual expression after reading `c`. -/
def RE.deriv (r : RE) (c : Char) : RE :=
  match r with
  | .fail => .fail
  | .eps => .fail
  | .cls p => if p c then .eps else .fail
  | .cat a b =>
      if a.nullable then .alt (.cat (a.deriv c) b) (b.deriv c)
      else .cat (a.deriv c) b
  | .alt a b => .alt (a.deriv c) (b.deriv c)
  | .star a => .cat (a.deriv c) (.star a)

/-- Does some prefix of `s` belong to the language of `r`? -/
def RE.searchHere (r : RE) : List Char → Bool
  | [] => r.nullable
  | c :: s => r.nullable || RE.searchHere (r.deriv c) s

/-- Does some substring of `s` belong to the language of `r`?  This is the
boolean content of Python's `re.search`. -/
def RE.searchList (r : RE) : List Char → Bool
  | [] => r.nullable
  | c :: s => r.searchHere (c :: s) || RE.searchList r s

/-- `re.search(pattern, text)` viewed as a boolean test on a string. -/
def RE.search (r : RE) (s : String) : Bool :=
  r.searchList s.data

/-! ### Character classes used by the source patterns -/

/-- ASCII whitespace, the model of the regex class `\s`. -/
def isWsChar (c : Char) : Bool :=
  c == ' ' || c == '\t' || c == '\n' || c == '\r' || c == '\x0b' || c == '\x0c'

/-- The regex class `[A-Za-z0-9_\-]` (key/secret/token value characters). -/
def isWordValChar (c : Char) : Bool :=
  c.isAlphanum || c == '_' || c == '-'

/-- The regex class `[^\s"\']` (password value characters). -/
def isPwValChar (c : Char) : Bool :=
  !(isWsChar c) && !(c == '"') && !(c == '\'')

/-- The regex class `[0-9a-zA-Z/+]` (base64 alphabet). -/
def isB64Char (c : Char) : Bool :=
  c.isAlphanum || c == '/' || c == '+'

/-- The regex class `[0-9A-Z]` (AWS access-key body). -/
def isUpperAlnumChar (c : Char) : Bool :=
  c.isDigit || (('A' ≤ c) && (c ≤ 'Z'))

/-- The regex class `[a-zA-Z0-9._%+-]` (email local part). -/
def isEmailLocalChar (c : Char) : Bool :=
  c.isAlphanum || c == '.' || c == '_' || c == '%' || c == '+' || c == '-'

/-- The regex class `[a-zA-Z0-9.-]` (email domain part). -/
def isEmailDomainChar (c : Char) : Bool :=
  c.isAlphanum || c == '.' || c == '-'

/-! ### Pattern combinators mirroring the regex syntax -/

/-- A literal character. -/
def RE.chr (c : Char) : RE := .cls (fun x => x == c)

/-- A literal word: the concatenation of its exact characters. -/
def RE.lit (s : String) : RE :=
  s.data.foldr (fun c r => .cat (RE.chr c) r) .eps

/-- The two-character class `[Xx]` for a cased letter: the source writes
case-insensitive labels as explicit classes such as `[Pp][Aa][Ss][Ss]`. -/
def RE.ci (c : Char) : RE := .cls (fun x => x == c.toLower || x == c.toUpper)

/-- A fully case-insensitive word: one `[Xx]` class per character. -/
def RE.ciWord (s : String) : RE :=
  s.data.foldr (fun c r => .cat (RE.ci c) r) .eps

/-- The regex `r?`. -/
def RE.opt (r : RE) : RE := .alt .eps r

/-- The regex `r{n}`: exactly `n` copies. -/
def RE.rep : Nat → RE → RE
  | 0, _ => .eps
  | n + 1, r => .cat r (RE.rep n r)

/-- The regex `r{n,}`: at least `n` copies. -/
def RE.atLeast (n : Nat) (r : RE) : RE := .cat (RE.rep n r) (.star r)

/-- The regex `r+`. -/
def RE.oneOrMore (r : RE) : RE := .cat r (.star r)

/-- `\s*` — any amount of whitespace. -/
def wsStar : RE := .star (.cls isWsChar)

/-- `\s+` — at least one whitespace character. -/
def wsPlus : RE := RE.oneOrMore (.cls isWsChar)

/-- `[:=]` — the assignment operator class. -/
def assignOp : RE := .cls (fun c => c == ':' || c == '=')

/-- `["\']?` — an optional quote. -/
def quoteOpt : RE := RE.opt (.cls (fun c => c == '"' || c == '\''))

/-- `.` under `re.DOTALL`: any character, newlines included. -/
def dotAll : RE := .cls (fun _ => true)

/-- Concatenation of a pattern list, left to right. -/
def RE.seq (l : List RE) : RE := l.foldr .cat .eps

/-- `\s*[:=]\s*["\']?(C{n,})["\']?` — the assignment-and-value tail shared
by the labelled patterns, with value class `p` and minimum length `n`. -/
def assignValue (n : Nat) (p : Char → Bool) : RE :=
  RE.seq [wsStar, assignOp, wsStar, quoteOpt, RE.atLeast n (.cls p), quoteOpt]

/-! ### The detectors, translated pattern-for-pattern from the source -/

/-- `[Aa][Pp][Ii][_-]?[Kk][Ee][Yy]` — the API-key label. -/
def apiKeyLabel : RE :=
  RE.seq [RE.ci 'a', RE.ci 'p', RE.ci 'i',
    RE.opt (.cls (fun c => c == '_' || c == '-')),
    RE.ci 'k', RE.ci 'e', RE.ci 'y']

/-- The six patterns of `detect_api_key`, in source order. -/
def apiKeyPatterns : List RE :=
  [ .cat apiKeyLabel (assignValue 20 isWordValChar),
    RE.seq [apiKeyLabel, wsPlus, RE.atLeast 20 (.cls isWordValChar)],
    .cat (RE.lit "sk-") (RE.atLeast 32 (.cls Char.isAlphanum)),
    .cat (RE.lit "AIza") (RE.rep 35 (.cls isWordValChar)),
    .cat (RE.lit "AKIA") (RE.rep 16 (.cls isUpperAlnumChar)),
    RE.rep 40 (.cls isB64Char) ]

/-- `detect_api_key`: true when any of its six patterns matches. -/
def detect_api_key (text : String) : Bool :=
  apiKeyPatterns.any (fun p => p.search text)

/-- `[Pp][Aa][Ss][Ss][Ww][Oo][Rr][Dd]\s*[:=]\s*["\']?([^\s"\']{6,})["\']?`.
The source repeats this exact pattern string inside
`detect_email_password`, so the definition is shared. -/
def passwordAssign : RE := .cat (RE.ciWord "password") (assignValue 6 isPwValChar)

/-- The four patterns of `detect_password`, in source order.  The third
pattern is `[Pp]ass...`: only its first letter is a class. -/
def passwordPatterns : List RE :=
  [ passwordAssign,
    .cat (RE.ciWord "pwd") (assignValue 6 isPwValChar),
    .cat (.cat (RE.ci 'p') (RE.lit "ass")) (assignValue 6 isPwValChar),
    .cat (RE.lit "密碼") (assignValue 6 isPwValChar) ]

/-- `detect_password`: true when any of its four patterns matches. -/
def detect_password (text : String) : Bool :=
  passwordPatterns.any (fun p => p.search text)

/-- `[Ss][Ee][Cc][Rr][Ee][Tt][_-]?[Kk][Ee][Yy]` — the secret-key label;
the separator class admits `_`, `-` or nothing, not a space. -/
def secretKeyLabel : RE :=
  RE.seq [RE.ciWord "secret",
    RE.opt (.cls (fun c => c == '_' || c == '-')),
    RE.ciWord "key"]

/-- The three patterns of `detect_secret_key`, in source order. -/
def secretKeyPatterns : List RE :=
  [ .cat (RE.ciWord "secret") (assignValue 16 isWordValChar),
    .cat secretKeyLabel (assignValue 16 isWordValChar),
    .cat (RE.ciWord "token") (assignValue 20 isWordValChar) ]

/-- `detect_secret_key`: true when any of its three patterns matches. -/
def detect_secret_key (text : String) : Bool :=
  secretKeyPatterns.any (fun p => p.search text)

/-- `L1\s*[:=].*L2\s*[:=]` under `re.DOTALL` — a credential pair. -/
def credsPair (l1 l2 : RE) : RE :=
  RE.seq [l1, wsStar, assignOp, .star dotAll, l2, wsStar, assignOp]

/-- The three patterns of `detect_credentials`, in source order:
username/password, account/password, 登入/密碼. -/
def credsPatterns : List RE :=
  [ credsPair (RE.ciWord "username") (RE.ciWord "password"),
    credsPair (RE.ciWord "account") (RE.ciWord "password"),
    credsPair (RE.lit "登入") (RE.lit "密碼") ]

/-- `detect_credentials`: true when any of its three patterns matches. -/
def detect_credentials (text : String) : Bool :=
  credsPatterns.any (fun p => p.search text)

/-- `[a-zA-Z0-9._%+-]+@[a-zA-Z0-9.-]+\.[a-zA-Z]{2,}` — an email address. -/
def emailPattern : RE :=
  RE.seq [RE.oneOrMore (.cls isEmailLocalChar), RE.chr '@',
    RE.oneOrMore (.cls isEmailDomainChar), RE.chr '.',
    RE.atLeast 2 (.cls Char.isAlpha)]

/-- `detect_email_password`: true when both an email address and a
password assignment occur anywhere in the text. -/
def detect_email_password (text : String) : Bool :=
  emailPattern.search text && passwordAssign.search text

/-! ### The decision engine `check_sensitive_info` and the adapter `main` -/

/-- The five fixed warning messages, bound to their detectors in the order
of the source's `checks` list. -/
def apiKeyMsg : String := "檢測到 API Key，請勿在提示中包含 API Key 等敏感資訊"

def passwordMsg : String := "檢測到密碼資訊，請勿在提示中包含密碼等敏感資訊"

def secretKeyMsg : String := "檢測到 Secret Key 或 Token，請勿在提示中包含此類敏感資訊"

def credentialsMsg : String := "檢測到帳號密碼組合，請勿在提示中包含帳號密碼等敏感資訊"

def emailPasswordMsg : String := "檢測到電子郵件和密碼組合，請勿在提示中包含此類敏感資訊"

/-- The ordered detector battery (the source's `checks` list). -/
def checks : List ((String → Bool) × String) :=
  [ (detect_api_key, apiKeyMsg),
    (detect_password, passwordMsg),
    (detect_secret_key, secretKeyMsg),
    (detect_credentials, credentialsMsg),
    (detect_email_password, emailPasswordMsg) ]

/-- The short-circuit loop over the battery: first match wins. -/
def firstCheck : List ((String → Bool) × String) → String → Bool × String
  | [], _ => (false, "")
  | (f, m) :: rest, prompt =>
      if f prompt then (true, m) else firstCheck rest prompt

/-- `check_sensitive_info(prompt)`: `(has_sensitive_info, warning_message)`. -/
def check_sensitive_info (prompt : String) : Bool × String :=
  firstCheck checks prompt

/-- The JSON response written by `main`: `continue` flag and optional
`user_message` field. -/
structure HookOutput where
  cont : Bool
  user_message : Option String
  deriving DecidableEq, Repr

/-- The control-flow events of `main`, embedding the exceptional paths as
values: `parseError e` is a caught `json.JSONDecodeError` (its message
`str(e)`), `parsed p` a successful parse whose optional string field
`prompt` is `p`, and `internalError e` any other exception caught by the
outer try/except (its message `str(e)`). -/
inductive MainEvent where
  | parseError (e : String)
  | parsed (promptField : Option String)
  | internalError (e : String)

/-- The response `main` serializes for each control-flow event, translated
branch-for-branch from the source. -/
def mainOutput : MainEvent → HookOutput
  | .parseError e =>
      { cont := true, user_message := some ("JSON 解析錯誤: " ++ e) }
  | .internalError e =>
      { cont := true, user_message := some ("檢查過程中發生錯誤: " ++ e) }
  | .parsed promptField =>
      let prompt := promptField.getD ""
      if prompt = "" then { cont := true, user_message := none }
      else
        let r := check_sensitive_info prompt
        if r.1 then { cont := false, user_message := some r.2 }
        else { cont := true, user_message := none }

/-- `xs` is a casing of the word `cs`: pointwise, each character is the
lowercase or uppercase form of the corresponding character. -/
inductive Casing : List Char → List Char → Prop where
  | nil : Casing [] []
  | cons {c x : Char} {cs xs : List Char} :
      (x = c.toLower ∨ x = c.toUpper) → Casing cs xs → Casing (c :: cs) (x :: xs)


/-- Two successive evaluations of the battery on the same text, modelling
two independent runs of the stateless filter. -/
def evalTwice (t : String) : (Bool × String) × (Bool × String) :=
  (check_sensitive_info t, check_sensitive_info t)

/-! ### Core regular-expression theorems -/

theorem RE.nullable_of_lang_nil {r : RE} (h : RE.Lang r []) :
    r.nullable = true := by
  generalize hw : ([] : List Char) = w at h
  induction h with
  | eps => rfl
  | cls _ => cases hw
  | cat _ _ iha ihb =>
      rcases List.append_eq_nil.mp hw.symm with ⟨hu, hv⟩
      simp [RE.nullable, iha hu.symm, ihb hv.symm]
  | altL _ ih => simp [RE.nullable, ih hw]
  | altR _ ih => simp [RE.nullable, ih hw]
  | starNil => rfl
  | starCat _ _ _ _ => rfl

theorem RE.lang_deriv_aux {r : RE} {w0 : List Char} (h : RE.Lang r w0) :
    ∀ c w, w0 = c :: w → RE.Lang (r.deriv c) w := by
  induction h with
  | eps => intro c w hw; cases hw
  | cls hp =>
      intro c w hw
      injection hw with h1 h2
      subst h1; subst h2
      simp only [RE.deriv, hp, if_true]
      exact RE.Lang.eps
  | cat ha hb iha ihb =>
      rename_i a b u v
      intro c w hw
      cases u with
      | nil =>
          have hnull := RE.nullable_of_lang_nil ha
          simp only [List.nil_append] at hw
          simp only [RE.deriv, hnull, if_true]
          exact RE.Lang.altR (ihb c w hw)
      | cons c0 u' =>
          simp only [List.cons_append] at hw
          injection hw with h1 h2
          subst h1
          have hu' : RE.Lang (a.deriv c0) u' := iha c0 u' rfl
          have hcat : RE.Lang (RE.cat (a.deriv c0) b) (u' ++ v) :=
            RE.Lang.cat hu' hb
          cases hn : a.nullable with
          | true =>
              simp only [RE.deriv, hn, if_true]
              exact h2 ▸ RE.Lang.altL hcat
          | false =>
              simp only [RE.deriv, hn, if_false]
              exact h2 ▸ hcat
  | altL _ ih =>
      intro c w hw
      exact RE.Lang.altL (ih c w hw)
  | altR _ ih =>
      intro c w hw
      exact RE.Lang.altR (ih c w hw)
  | starNil => intro c w hw; cases hw
  | starCat ha hrest iha ihrest =>
      rename_i a u v
      intro c w hw
      cases u with
      | nil =>
          simp only [List.nil_append] at hw
          exact ihrest c w hw
      | cons c0 u' =>
          simp only [List.cons_append] at hw
          injection hw with h1 h2
          subst h1
          have hu' : RE.Lang (a.deriv c0) u' := iha c0 u' rfl
          have := RE.Lang.cat hu' hrest
          simpa [RE.deriv, h2] using this

theorem RE.lang_deriv_of_lang_cons {r : RE} {c : Char} {w : List Char}
    (h : RE.Lang r (c :: w)) : RE.Lang (r.deriv c) w :=
  RE.lang_deriv_aux h c w rfl

/-- Completeness of the prefix scan: a word of the language followed by
anything is found. -/
theorem RE.searchHere_complete {r : RE} {w rest : List Char}
    (h : RE.Lang r w) : r.searchHere (w ++ rest) = true := by
  induction w generalizing r with
  | nil =>
      have hn := RE.nullable_of_lang_nil h
      cases rest with
      | nil => simpa [RE.searchHere] using hn
      | cons c s => simp [RE.searchHere, hn]
  | cons c w' ih =>
      have hd := RE.lang_deriv_of_lang_cons h
      simp [RE.searchHere, ih hd]

/-- Completeness of the substring scan: if some substring of `s` is in the
language of `r`, the scan reports a match. -/
theorem RE.searchList_complete {r : RE} {pre w post : List Char}
    (h : RE.Lang r w) : r.searchList (pre ++ w ++ post) = true := by
  induction pre with
  | nil =>
      simp only [List.nil_append]
      cases hw : w ++ post with
      | nil =>
          rcases List.append_eq_nil.mp hw with ⟨hu, _⟩
          subst hu
          simpa [RE.searchList] using RE.nullable_of_lang_nil h
      | cons c s =>
          have : r.searchHere (w ++ post) = true := RE.searchHere_complete h
          rw [hw] at this
          simp [RE.searchList, this]
  | cons c pre' ih =>
      simp only [List.cons_append, RE.searchList, Bool.or_eq_true]
      exact Or.inr (by simpa [List.append_assoc] using ih)

theorem RE.search_complete {r : RE} {pre w post : List Char}
    (h : RE.Lang r w)
    {s : String} (hs : s.data = pre ++ w ++ post) :
    r.search s = true := by
  rw [RE.search, hs]
  exact RE.searchList_complete h

/-! ### Shape lemmas: building language membership for the pattern pieces -/

theorem lang_ciList_of_casing {cs xs : List Char} (h : Casing cs xs) :
    RE.Lang (cs.foldr (fun c r => .cat (RE.ci c) r) .eps) xs := by
  induction h with
  | nil => exact RE.Lang.eps
  | @cons c x cs' xs' hx _ ih =>
      have hcls : RE.Lang (RE.ci c) [x] := by
        apply RE.Lang.cls
        rcases hx with h | h <;> simp [h]
      have := RE.Lang.cat hcls ih
      simpa using this

theorem lang_ciWord_of_casing {s : String} {xs : List Char}
    (h : Casing s.data xs) : RE.Lang (RE.ciWord s) xs :=
  lang_ciList_of_casing h

/-- A word all of whose characters are already lowercase is a casing of
itself. -/
theorem casing_of_lower : ∀ cs : List Char,
    (∀ c ∈ cs, c.toLower = c) → Casing cs cs
  | [], _ => Casing.nil
  | c :: cs, h =>
      Casing.cons (Or.inl (h c (by simp)).symm)
        (casing_of_lower cs (fun c' hc' => h c' (by simp [hc'])))

theorem lang_litList : ∀ cs : List Char,
    RE.Lang (cs.foldr (fun c r => .cat (RE.chr c) r) .eps) cs
  | [] => RE.Lang.eps
  | c :: cs => by
      have hcls : RE.Lang (RE.chr c) [c] := RE.Lang.cls (by simp [RE.chr])
      have := RE.Lang.cat hcls (lang_litList cs)
      simpa using this

theorem lang_lit (s : String) : RE.Lang (RE.lit s) s.data :=
  lang_litList s.data

theorem lang_star_cls {p : Char → Bool} :
    ∀ {w : List Char}, (∀ c ∈ w, p c = true) → RE.Lang (.star (.cls p)) w
  | [], _ => RE.Lang.starNil
  | c :: w, h => by
      have hcls : RE.Lang (RE.cls p) [c] := RE.Lang.cls (h c (by simp))
      have hrest : RE.Lang (RE.star (RE.cls p)) w :=
        lang_star_cls (fun c' hc' => h c' (by simp [hc']))
      have := RE.Lang.starCat hcls hrest
      simpa using this

theorem lang_rep_cls {p : Char → Bool} :
    ∀ (n : Nat) {w : List Char}, w.length = n → (∀ c ∈ w, p c = true) →
      RE.Lang (RE.rep n (.cls p)) w
  | 0, w, hlen, _ => by
      have : w = [] := List.length_eq_zero.mp hlen
      subst this
      exact RE.Lang.eps
  | n + 1, w, hlen, h => by
      cases w with
      | nil => simp at hlen
      | cons c w' =>
          have hcls : RE.Lang (RE.cls p) [c] := RE.Lang.cls (h c (by simp))
          have hrest : RE.Lang (RE.rep n (.cls p)) w' :=
            lang_rep_cls n (by simpa using hlen) (fun c' hc' => h c' (by simp [hc']))
          have := RE.Lang.cat hcls hrest
          simpa [RE.rep] using this

theorem lang_atLeast_cls {p : Char → Bool} {n : Nat} {w : List Char}
    (hlen : n ≤ w.length) (h : ∀ c ∈ w, p c = true) :
    RE.Lang (RE.atLeast n (.cls p)) w := by
  have h1 : RE.Lang (RE.rep n (.cls p)) (w.take n) :=
    lang_rep_cls n (by simp [List.length_take]; omega)
      (fun c hc => h c (List.mem_of_mem_take hc))
  have h2 : RE.Lang (.star (.cls p)) (w.drop n) :=
    lang_star_cls (fun c hc => h c (List.mem_of_mem_drop hc))
  have := RE.Lang.cat h1 h2
  simpa [List.take_append_drop] using this

theorem lang_wsStar {w : List Char} (h : ∀ c ∈ w, isWsChar c = true) :
    RE.Lang wsStar w :=
  lang_star_cls h

theorem lang_assignOp {op : Char} (h : op = ':' ∨ op = '=') :
    RE.Lang assignOp [op] :=
  RE.Lang.cls (by rcases h with h | h <;> simp [h])

theorem lang_quoteOpt {q : List Char}
    (h : q = [] ∨ q = ['"'] ∨ q = ['\'']) : RE.Lang quoteOpt q := by
  rcases h with h | h | h <;> subst h
  · exact RE.Lang.altL RE.Lang.eps
  · exact RE.Lang.altR (RE.Lang.cls (by simp))
  · exact RE.Lang.altR (RE.Lang.cls (by simp))

/-- Membership in the shared assignment-and-value tail
`\s*[:=]\s*["\']?(C{n,})["\']?` (with the trailing optional quote taken
empty). -/
theorem lang_assignValue {n : Nat} {p : Char → Bool}
    {ws1 ws2 q v : List Char} {op : Char}
    (hws1 : ∀ c ∈ ws1, isWsChar c = true) (hop : op = ':' ∨ op = '=')
    (hws2 : ∀ c ∈ ws2, isWsChar c = true)
    (hq : q = [] ∨ q = ['"'] ∨ q = ['\''])
    (hv : n ≤ v.length) (hvc : ∀ c ∈ v, p c = true) :
    RE.Lang (assignValue n p) (ws1 ++ [op] ++ ws2 ++ q ++ v) := by
  have h1 := lang_wsStar hws1
  have h2 := lang_assignOp hop
  have h3 := lang_wsStar hws2
  have h4 := lang_quoteOpt hq
  have h5 := lang_atLeast_cls hv hvc
  have h6 : RE.Lang quoteOpt [] := RE.Lang.altL RE.Lang.eps
  have := RE.Lang.cat h1 (RE.Lang.cat h2 (RE.Lang.cat h3 (RE.Lang.cat h4
    (RE.Lang.cat h5 (RE.Lang.cat h6 RE.Lang.eps)))))
  simpa [assignValue, RE.seq, List.append_assoc] using this

/-! ### Decision-engine lemmas -/

theorem firstCheck_first_true
    (l : List ((String → Bool) × String)) (prompt : String) :
    ∀ (k : Nat) (hk : k < l.length),
      (l.get ⟨k, hk⟩).1 prompt = true →
      (∀ (j : Nat) (hj : j < l.length), j < k →
        (l.get ⟨j, hj⟩).1 prompt = false) →
      firstCheck l prompt = (true, (l.get ⟨k, hk⟩).2) := by
  induction l with
  | nil => intro k hk; simp at hk
  | cons fm rest ih =>
      obtain ⟨f, m⟩ := fm
      intro k hk htrue hfalse
      cases k with
      | zero =>
          simp only [List.get] at htrue
          simp [firstCheck, htrue, List.get]
      | succ k' =>
          have h0 : f prompt = false := by
            simpa using hfalse 0 (by simp) (Nat.succ_pos k')
          simp only [List.get] at htrue
          simp only [firstCheck, h0, Bool.false_eq_true, if_false, List.get]
          exact ih k' (by simpa using hk) htrue
            (fun j hj hjk => by
              simpa using hfalse (j + 1) (by simpa using hj)
                (Nat.succ_lt_succ hjk))

theorem firstCheck_all_false
    (l : List ((String → Bool) × String)) (prompt : String) :
    (∀ (j : Nat) (hj : j < l.length), (l.get ⟨j, hj⟩).1 prompt = false) →
    firstCheck l prompt = (false, "") := by
  induction l with
  | nil => intro _; rfl
  | cons fm rest ih =>
      obtain ⟨f, m⟩ := fm
      intro h
      have h0 : f prompt = false := by simpa using h 0 (by simp)
      simp only [firstCheck, h0, Bool.false_eq_true, if_false]
      exact ih (fun j hj => by simpa using h (j + 1) (by simpa using hj))

/-- Unfolding of `mainOutput` on the successful-parse branch. -/
theorem mainOutput_parsed (pf : Option String) :
    mainOutput (.parsed pf) =
      if pf.getD "" = "" then { cont := true, user_message := none }
      else if (check_sensitive_info (pf.getD "")).1 then
        { cont := false,
          user_message := some (check_sensitive_info (pf.getD "")).2 }
      else { cont := true, user_message := none } := rfl

/-- A match found in a word placed in any context. -/
theorem search_in_concat {r : RE} {w : List Char} (h : RE.Lang r w)
    (pre post : List Char) :
    r.search (String.mk (pre ++ w ++ post)) = true :=
  RE.search_complete h rfl

/-- The all-uppercase casing of a word. -/
theorem casing_map_toUpper : ∀ cs : List Char,
    Casing cs (cs.map Char.toUpper)
  | [] => Casing.nil
  | _ :: cs => Casing.cons (Or.inr rfl) (casing_map_toUpper cs)

/-! ### Claim theorems -/

/-- C1: first-match-wins over the fixed battery.  For every prompt, if
detector `k` of the ordered `checks` list (API-key, password,
secret/token, credential-pair, email+password) fires and no
earlier-ordered detector fires, `check_sensitive_info` returns the deny
flag (`has_sensitive_info = true`, rendered by `main` as
`continue: false`) paired with exactly detector `k`'s fixed warning
message; and if no detector fires, it returns the allow flag with an
empty message. -/
theorem check_sensitive_info_first_match (prompt : String) :
    (∀ (k : Nat) (hk : k < checks.length),
        (checks.get ⟨k, hk⟩).1 prompt = true →
        (∀ (j : Nat) (hj : j < checks.length), j < k →
          (checks.get ⟨j, hj⟩).1 prompt = false) →
        check_sensitive_info prompt = (true, (checks.get ⟨k, hk⟩).2)) ∧
    ((∀ (j : Nat) (hj : j < checks.length),
        (checks.get ⟨j, hj⟩).1 prompt = false) →
      check_sensitive_info prompt = (false, "")) :=
  ⟨fun k hk htrue hfalse =>
      firstCheck_first_true checks prompt k hk htrue hfalse,
   fun hall => firstCheck_all_false checks prompt hall⟩

/-- Witness for C1: detector 1 (password) fires on `"password: hunter22"`,
detector 0 (API-key) does not, and the password warning is returned. -/
theorem check_sensitive_info_first_match_witness :
    check_sensitive_info "password: hunter22" = (true, passwordMsg) :=
  (check_sensitive_info_first_match "password: hunter22").1 1
    (by decide) (by decide)
    (fun j hj hjk => by
      have hj0 : j = 0 := by omega
      subst hj0
      exact (by decide :
        (checks.get ⟨0, Nat.succ_pos 4⟩).1
          "password: hunter22" = false))

/-- C3: the only event giving `continue = false` is a successful parse
whose non-empty prompt is flagged by the battery; both caught-failure
events (`json.JSONDecodeError` and the outer catch-all for any other
exception) are converted to `continue = true` plus a `user_message`
describing the failure, never a crash. -/
theorem mainOutput_deny_only_on_match :
    (∀ ev : MainEvent, (mainOutput ev).cont = false →
        ∃ p, ev = MainEvent.parsed (some p) ∧ p ≠ "" ∧
          (check_sensitive_info p).1 = true ∧
          (mainOutput ev).user_message = some (check_sensitive_info p).2) ∧
    (∀ e, mainOutput (MainEvent.parseError e) =
      { cont := true, user_message := some ("JSON 解析錯誤: " ++ e) }) ∧
    (∀ e, mainOutput (MainEvent.internalError e) =
      { cont := true, user_message := some ("檢查過程中發生錯誤: " ++ e) }) := by
  refine ⟨?_, fun e => rfl, fun e => rfl⟩
  intro ev hev
  cases ev with
  | parseError e => exact absurd hev (by simp [mainOutput])
  | internalError e => exact absurd hev (by simp [mainOutput])
  | parsed pf =>
      cases pf with
      | none => exact absurd hev (by simp [mainOutput_parsed])
      | some p =>
          by_cases hp : p = ""
          · subst hp
            exact absurd hev (by simp [mainOutput_parsed])
          · by_cases hs : (check_sensitive_info p).1 = true
            · refine ⟨p, rfl, hp, hs, ?_⟩
              simp [mainOutput_parsed, hp, hs]
            · exact absurd hev (by simp [mainOutput_parsed, hp, hs])

/-- Witness for C3 at the concrete prompt `"pwd: topsecret"`, on which the
battery fires, so the deny output carries the matching warning. -/
theorem mainOutput_deny_only_on_match_witness :
    ∃ p, MainEvent.parsed (some "pwd: topsecret") =
        MainEvent.parsed (some p) ∧ p ≠ "" ∧
      (check_sensitive_info p).1 = true ∧
      (mainOutput (MainEvent.parsed (some "pwd: topsecret"))).user_message =
        some (check_sensitive_info p).2 :=
  mainOutput_deny_only_on_match.1
    (MainEvent.parsed (some "pwd: topsecret")) (by decide)

/-- C4: a malformed-JSON input stream is answered with `continue = true`
and a non-empty `user_message` naming the parse error; malformed framing
never yields `continue = false`. -/
theorem mainOutput_parse_error (e : String) :
    mainOutput (.parseError e) =
      { cont := true, user_message := some ("JSON 解析錯誤: " ++ e) } ∧
    0 < ("JSON 解析錯誤: " ++ e).length := by
  refine ⟨rfl, ?_⟩
  rw [String.length_append]
  have h : 0 < "JSON 解析錯誤: ".length := by decide
  omega

/-- C5: an absent `prompt` field, or an empty one, yields exactly
`{continue: true}` with no `user_message`. -/
theorem mainOutput_empty_prompt (pf : Option String)
    (h : pf = none ∨ pf = some "") :
    mainOutput (.parsed pf) = { cont := true, user_message := none } := by
  rcases h with h | h <;> subst h <;> rfl

/-- Witness for C5: the absent-prompt event. -/
theorem mainOutput_empty_prompt_witness :
    mainOutput (.parsed none) = { cont := true, user_message := none } :=
  mainOutput_empty_prompt none (Or.inl rfl)

/-- C9: on `"username: bob password: hunter2"` the password detector
(earlier in battery order) also matches, so the filter denies with the
password warning, not the credential-pair warning; the credential-pair
detector alone would also have matched. -/
theorem username_password_text_denied :
    check_sensitive_info "username: bob password: hunter2" =
      (true, passwordMsg) ∧
    mainOutput (.parsed (some "username: bob password: hunter2")) =
      { cont := false, user_message := some passwordMsg } ∧
    detect_password "username: bob password: hunter2" = true ∧
    detect_credentials "username: bob password: hunter2" = true :=
  ⟨by decide, by decide, by decide, by decide⟩

/-- C10: the filter is a pure function of the text: two evaluations of the
same text (the two components of `evalTwice`) are identical. -/
theorem check_sensitive_info_idempotent (t : String) :
    (evalTwice t).1 = (evalTwice t).2 := rfl

/-- C2: whenever the email+password detector fires, the password detector
fires as well (the egress password sub-pattern of `detect_email_password`
is the first pattern of `detect_password`), so under first-match-wins the
fifth warning message is unreachable: `check_sensitive_info` never
returns it. -/
theorem email_password_detector_unreachable :
    (∀ t, detect_email_password t = true → detect_password t = true) ∧
    (∀ t, (check_sensitive_info t).2 ≠ emailPasswordMsg) := by
  have himp : ∀ t, detect_email_password t = true → detect_password t = true := by
    intro t h
    have hpw : passwordAssign.search t = true := by
      have h' := h
      simp only [detect_email_password, Bool.and_eq_true] at h'
      exact h'.2
    simp [detect_password, passwordPatterns, List.any_cons, hpw]
  refine ⟨himp, ?_⟩
  intro t
  simp only [check_sensitive_info, checks, firstCheck]
  by_cases h1 : detect_api_key t = true
  · simp only [h1, if_true]
    decide
  · simp only [h1, if_false]
    by_cases h2 : detect_password t = true
    · simp only [h2, if_true]
      decide
    · simp only [h2, if_false]
      by_cases h3 : detect_secret_key t = true
      · simp only [h3, if_true]
        decide
      · simp only [h3, if_false]
        by_cases h4 : detect_credentials t = true
        · simp only [h4, if_true]
          decide
        · simp only [h4, if_false]
          by_cases h5 : detect_email_password t = true
          · exact absurd (himp t h5) h2
          · simp only [h5, if_false]
            decide

/-- Witness for C2: `"a@b.com password: hunter2"` fires the email+password
detector, hence also the password detector. -/
theorem email_password_detector_unreachable_witness :
    detect_password "a@b.com password: hunter2" = true :=
  email_password_detector_unreachable.1 "a@b.com password: hunter2"
    (by decide)

/-- C6 counterexample: `"PASS: abcdef"` is the label casing "PASS" of
"pass" followed by `:`, a space and a 6-character value of non-whitespace
non-quote characters, yet `detect_password` rejects it — the source's
third pattern `[Pp]ass` is case-insensitive only in its first letter. -/
theorem detect_password_pass_uppercase_rejected :
    ("PASS: abcdef".data =
      "PASS".data ++ [] ++ [':'] ++ [' '] ++ [] ++ "abcdef".data ++ []) ∧
    6 ≤ "abcdef".data.length ∧
    (∀ c ∈ "abcdef".data, isPwValChar c = true) ∧
    detect_password "PASS: abcdef" = false :=
  ⟨by decide, by decide, by decide, by decide⟩

/-- C6 (amended): the password detector fires on every casing of the
labels "password" and "pwd" followed by optional whitespace, `:` or `=`,
optional whitespace, an optional quote and a value of at least 6
non-whitespace non-quote characters; for the label "pass" only the first
letter is case-insensitive (`pass`/`Pass`), the remaining three letters
being fixed lowercase. -/
theorem detect_password_label_shapes
    (lbl ws1 ws2 q v pre post : List Char) (op : Char)
    (hlbl : Casing "password".data lbl ∨ Casing "pwd".data lbl ∨
        (∃ p0, (p0 = 'p' ∨ p0 = 'P') ∧ lbl = p0 :: "ass".data))
    (hws1 : ∀ c ∈ ws1, isWsChar c = true) (hop : op = ':' ∨ op = '=')
    (hws2 : ∀ c ∈ ws2, isWsChar c = true)
    (hq : q = [] ∨ q = ['"'] ∨ q = ['\''])
    (hv : 6 ≤ v.length) (hvc : ∀ c ∈ v, isPwValChar c = true) :
    detect_password
      (String.mk (pre ++ lbl ++ ws1 ++ [op] ++ ws2 ++ q ++ v ++ post)) =
      true := by
  have htail := lang_assignValue (n := 6) (p := isPwValChar)
    hws1 hop hws2 hq hv hvc
  have heq : pre ++ (lbl ++ (ws1 ++ [op] ++ ws2 ++ q ++ v)) ++ post
      = pre ++ lbl ++ ws1 ++ [op] ++ ws2 ++ q ++ v ++ post := by
    simp [List.append_assoc]
  simp only [detect_password, passwordPatterns, List.any_cons, List.any_nil,
    Bool.or_eq_true, Bool.or_false]
  rcases hlbl with hl | hl | hl
  · have hlang : RE.Lang passwordAssign (lbl ++ (ws1 ++ [op] ++ ws2 ++ q ++ v)) :=
      RE.Lang.cat (lang_ciWord_of_casing hl) htail
    have hsearch := search_in_concat hlang pre post
    rw [heq] at hsearch
    exact Or.inl hsearch
  · have hlang : RE.Lang (.cat (RE.ciWord "pwd") (assignValue 6 isPwValChar))
        (lbl ++ (ws1 ++ [op] ++ ws2 ++ q ++ v)) :=
      RE.Lang.cat (lang_ciWord_of_casing hl) htail
    have hsearch := search_in_concat hlang pre post
    rw [heq] at hsearch
    exact Or.inr (Or.inl hsearch)
  · obtain ⟨p0, hp0, rfl⟩ := hl
    have hfirst : RE.Lang (RE.ci 'p') [p0] :=
      RE.Lang.cls (by rcases hp0 with h | h <;> subst h <;> decide)
    have hlbl2 : RE.Lang (.cat (RE.ci 'p') (RE.lit "ass"))
        ([p0] ++ "ass".data) :=
      RE.Lang.cat hfirst (lang_lit "ass")
    have hlang := RE.Lang.cat hlbl2 htail
    have hsearch := search_in_concat hlang pre post
    have heq2 : pre ++ ([p0] ++ "ass".data ++ (ws1 ++ [op] ++ ws2 ++ q ++ v)) ++ post
        = pre ++ (p0 :: "ass".data) ++ ws1 ++ [op] ++ ws2 ++ q ++ v ++ post := by
      simp [List.append_assoc]
    rw [heq2] at hsearch
    exact Or.inr (Or.inr (Or.inl hsearch))

/-- Witness for C6 (amended): the fully-uppercased label "PWD" assigned
the value "hunter2" is detected. -/
theorem detect_password_label_shapes_witness :
    detect_password
      (String.mk ([] ++ "PWD".data ++ [] ++ [':'] ++ [' '] ++ [] ++
        "hunter2".data ++ [])) = true :=
  detect_password_label_shapes "PWD".data [] [' '] [] "hunter2".data [] []
    ':'
    (Or.inr (Or.inl (by
      have heq : "pwd".data.map Char.toUpper = "PWD".data := by decide
      exact heq ▸ casing_map_toUpper "pwd".data)))
    (by decide) (Or.inl rfl) (by decide) (Or.inl rfl) (by decide) (by decide)

/-- C7 counterexample: the space-separated spelling "secret key" with a
16-character `[A-Za-z0-9_-]` value is NOT matched — the separator class
`[_-]?` of the source's second pattern admits `_`, `-` or nothing, and a
space also breaks the first pattern's `secret\s*[:=]`. -/
theorem detect_secret_key_space_form_rejected :
    ("secret key: abcdefghijklmnop".data =
      "secret".data ++ [' '] ++ "key".data ++ [] ++ [':'] ++ [' '] ++ [] ++
        "abcdefghijklmnop".data ++ []) ∧
    16 ≤ "abcdefghijklmnop".data.length ∧
    (∀ c ∈ "abcdefghijklmnop".data, isWordValChar c = true) ∧
    detect_secret_key "secret key: abcdefghijklmnop" = false :=
  ⟨by decide, by decide, by decide, by decide⟩

/-- C7 (amended): the secret-key label pattern fires on every casing of
"secret" and "key" joined by `_`, `-` or no separator at all (spellings
`secret_key`, `secret-key`, `secretkey`), followed by an assignment
operator and a value of at least 16 characters from `[A-Za-z0-9_-]`; the
space-separated spelling "secret key" is not among the matched shapes. -/
theorem detect_secret_key_label_shapes
    (sLbl kLbl sep ws1 ws2 q v pre post : List Char) (op : Char)
    (hs : Casing "secret".data sLbl) (hk : Casing "key".data kLbl)
    (hsep : sep = [] ∨ sep = ['_'] ∨ sep = ['-'])
    (hws1 : ∀ c ∈ ws1, isWsChar c = true) (hop : op = ':' ∨ op = '=')
    (hws2 : ∀ c ∈ ws2, isWsChar c = true)
    (hq : q = [] ∨ q = ['"'] ∨ q = ['\''])
    (hv : 16 ≤ v.length) (hvc : ∀ c ∈ v, isWordValChar c = true) :
    detect_secret_key
      (String.mk (pre ++ sLbl ++ sep ++ kLbl ++ ws1 ++ [op] ++ ws2 ++ q ++
        v ++ post)) = true := by
  have htail := lang_assignValue (n := 16) (p := isWordValChar)
    hws1 hop hws2 hq hv hvc
  have hsepL : RE.Lang (RE.opt (.cls (fun c => c == '_' || c == '-'))) sep := by
    rcases hsep with h | h | h <;> subst h
    · exact RE.Lang.altL RE.Lang.eps
    · exact RE.Lang.altR (RE.Lang.cls (by decide))
    · exact RE.Lang.altR (RE.Lang.cls (by decide))
  have hlbl : RE.Lang secretKeyLabel (sLbl ++ (sep ++ (kLbl ++ []))) :=
    RE.Lang.cat (lang_ciWord_of_casing hs)
      (RE.Lang.cat hsepL
        (RE.Lang.cat (lang_ciWord_of_casing hk) RE.Lang.eps))
  have hlang := RE.Lang.cat hlbl htail
  have hsearch := search_in_concat hlang pre post
  have heq : pre ++ (sLbl ++ (sep ++ (kLbl ++ [])) ++
        (ws1 ++ [op] ++ ws2 ++ q ++ v)) ++ post
      = pre ++ sLbl ++ sep ++ kLbl ++ ws1 ++ [op] ++ ws2 ++ q ++ v ++ post := by
    simp [List.append_assoc]
  rw [heq] at hsearch
  simp only [detect_secret_key, secretKeyPatterns, List.any_cons,
    List.any_nil, Bool.or_eq_true, Bool.or_false]
  exact Or.inr (Or.inl hsearch)

/-- Witness for C7 (amended): `"secret_key: abcdefghijklmnop"`. -/
theorem detect_secret_key_label_shapes_witness :
    detect_secret_key
      (String.mk ([] ++ "secret".data ++ ['_'] ++ "key".data ++ [] ++
        [':'] ++ [' '] ++ [] ++ "abcdefghijklmnop".data ++ [])) = true :=
  detect_secret_key_label_shapes "secret".data "key".data ['_'] [] [' ']
    [] "abcdefghijklmnop".data [] [] ':'
    (casing_of_lower "secret".data (by decide))
    (casing_of_lower "key".data (by decide))
    (Or.inr (Or.inl rfl)) (by decide) (Or.inl rfl) (by decide)
    (Or.inl rfl) (by decide) (by decide)

/-- C8 counterexample: the claim's flattened reading pairs any first label
with any second label, but the source only pairs username/password,
account/password and 登入/密碼 — the cross pair username/密碼, in the
claimed shape with an embedded newline, is not matched. -/
theorem detect_credentials_cross_pair_rejected :
    ("username: a\n密碼: bcdefg".data =
      "username".data ++ [] ++ [':'] ++ " a\n".data ++ "密碼".data ++ [] ++
        [':'] ++ " bcdefg".data) ∧
    detect_credentials "username: a\n密碼: bcdefg" = false :=
  ⟨by decide, by decide⟩

/-- C8 (amended): the credential-pair detector spans line breaks for the
three pairs the source lists — username/password, account/password and
登入/密碼 (the Latin labels in any casing, the Chinese labels literal):
each label followed by optional whitespace and `:` or `=`, with arbitrary
characters, newlines included, in between. -/
theorem detect_credentials_pairs
    (u p mid ws1 ws2 pre post : List Char) (op1 op2 : Char)
    (hpair : (Casing "username".data u ∧ Casing "password".data p) ∨
        (Casing "account".data u ∧ Casing "password".data p) ∨
        (u = "登入".data ∧ p = "密碼".data))
    (hws1 : ∀ c ∈ ws1, isWsChar c = true) (hop1 : op1 = ':' ∨ op1 = '=')
    (hws2 : ∀ c ∈ ws2, isWsChar c = true) (hop2 : op2 = ':' ∨ op2 = '=') :
    detect_credentials
      (String.mk (pre ++ u ++ ws1 ++ [op1] ++ mid ++ p ++ ws2 ++ [op2] ++
        post)) = true := by
  have hmid : RE.Lang (.star dotAll) mid := lang_star_cls (fun _ _ => rfl)
  have heq : pre ++ (u ++ (ws1 ++ ([op1] ++ (mid ++ (p ++ (ws2 ++
        ([op2] ++ []))))))) ++ post
      = pre ++ u ++ ws1 ++ [op1] ++ mid ++ p ++ ws2 ++ [op2] ++ post := by
    simp [List.append_assoc]
  have hbuild : ∀ (l1 l2 : RE), RE.Lang l1 u → RE.Lang l2 p →
      RE.Lang (credsPair l1 l2) (u ++ (ws1 ++ ([op1] ++ (mid ++ (p ++
        (ws2 ++ ([op2] ++ []))))))) := by
    intro l1 l2 h1 h2
    exact RE.Lang.cat h1
      (RE.Lang.cat (lang_wsStar hws1)
        (RE.Lang.cat (lang_assignOp hop1)
          (RE.Lang.cat hmid
            (RE.Lang.cat h2
              (RE.Lang.cat (lang_wsStar hws2)
                (RE.Lang.cat (lang_assignOp hop2) RE.Lang.eps))))))
  simp only [detect_credentials, credsPatterns, List.any_cons,
    List.any_nil, Bool.or_eq_true, Bool.or_false]
  rcases hpair with ⟨hu, hp⟩ | ⟨hu, hp⟩ | ⟨hu, hp⟩
  · have hsearch := search_in_concat
      (hbuild _ _ (lang_ciWord_of_casing hu) (lang_ciWord_of_casing hp))
      pre post
    rw [heq] at hsearch
    exact Or.inl hsearch
  · have hsearch := search_in_concat
      (hbuild _ _ (lang_ciWord_of_casing hu) (lang_ciWord_of_casing hp))
      pre post
    rw [heq] at hsearch
    exact Or.inr (Or.inl hsearch)
  · subst hu; subst hp
    have hsearch := search_in_concat
      (hbuild _ _ (lang_lit "登入") (lang_lit "密碼")) pre post
    rw [heq] at hsearch
    exact Or.inr (Or.inr hsearch)

/-- Witness for C8 (amended): a username/password pair separated by a
newline is detected. -/
theorem detect_credentials_pairs_witness :
    detect_credentials
      (String.mk ([] ++ "username".data ++ [] ++ [':'] ++ " alice\n".data ++
        "password".data ++ [] ++ [':'] ++ " hunter2".data)) = true :=
  detect_credentials_pairs "username".data "password".data " alice\n".data
    [] [] [] " hunter2".data ':' ':'
    (Or.inl ⟨casing_of_lower "username".data (by decide),
      casing_of_lower "password".data (by decide)⟩)
    (by decide) (Or.inl rfl) (by decide) (Or.inl rfl)
